import Mathlib

/-!
Verification of `lagaris_02_tf_adam.py`: a script that trains a one-hidden-layer
network to solve the Lagaris problem 2 ODE IVP with a physics-informed loss.

The numeric semantics is idealized over `ℝ`: TensorFlow's automatic
differentiation computes exact derivatives of the computation graph, so the
embedding uses the exact mathematical derivatives of the defined functions.
-/

namespace Lagaris02

noncomputable section

/-- Hyperparameter `H` from the script (number of hidden nodes). -/
def Hval : ℕ := 10

/-- Hyperparameter `nt` from the script (number of training points). -/
def ntVal : ℕ := 11

/-- Hyperparameter `n_epochs` from the script. -/
def nEpochsVal : ℕ := 1000

/-- Hyperparameter `learning_rate` from the script. -/
def learningRate : ℝ := 1 / 100

/-- Hyperparameter `random_seed` from the script. -/
def randomSeed : ℕ := 0

/-- Logistic sigmoid, the hidden-layer activation (`tf.keras.activations.sigmoid`). -/
def sigmoid (z : ℝ) : ℝ := 1 / (1 + Real.exp (-z))

/-- First derivative of the sigmoid, in the standard form σ(z)·(1−σ(z)). -/
def dsigmoid (z : ℝ) : ℝ := sigmoid z * (1 - sigmoid z)

/-- Second derivative of the sigmoid, in the standard form σ'(z)·(1−2σ(z)). -/
def d2sigmoid (z : ℝ) : ℝ := dsigmoid z * (1 - 2 * sigmoid z)

/-- The trainable parameters of `build_model H`: hidden weights `w` (the `(1,H)`
kernel of the hidden `Dense` layer, as its single row), hidden biases `u`, and
output weights `v` (the `(H,1)` kernel of the output layer, as its single
column; the output layer has no bias). -/
structure Params (H : ℕ) where
  w : Fin H → ℝ
  u : Fin H → ℝ
  v : Fin H → ℝ

/-- Network output `N(x; θ) = Σ_j v_j · σ(w_j x + u_j)` (forward pass of the
sigmoid hidden layer followed by the linear, bias-free output layer). -/
def Nnet {H : ℕ} (p : Params H) (x : ℝ) : ℝ :=
  ∑ j, p.v j * sigmoid (p.w j * x + p.u j)

/-- Exact derivative `dN/dx` of the network output with respect to its input,
as computed by reverse-mode automatic differentiation of the graph. -/
def dNdx {H : ℕ} (p : Params H) (x : ℝ) : ℝ :=
  ∑ j, p.v j * dsigmoid (p.w j * x + p.u j) * p.w j

/-- Trial solution `y = x * N` (source line 126). -/
def trialY {H : ℕ} (p : Params H) (x : ℝ) : ℝ := x * Nnet p x

/-- Exact derivative `dy_dx = tape1.gradient(y, x)` of the trial solution:
`d(x·N)/dx = N + x·dN/dx` (source line 130). -/
def dYdx {H : ℕ} (p : Params H) (x : ℝ) : ℝ := Nnet p x + x * dNdx p x

/-- Modelled from the spec: the `ODE1IVP` Equation Oracle interface (the `nnde`
package is not part of this repository). `residual` is the mandatory residual
function `residual(x, y, dy_dx)`; `Ya` and `dYa_dx` are the optional analytic
solution and analytic derivative capabilities. -/
structure Oracle where
  residual : ℝ → ℝ → ℝ → ℝ
  Ya : Option (ℝ → ℝ)
  dYa_dx : Option (ℝ → ℝ)

/-- The residual computation of the training loop, translated from source line
133: `G = dy_dx + y/5 - tf.math.exp(-x/5)*tf.math.cos(x)`. The configured
oracle `ode1ivp` (source line 92) is in scope at that line but is not
consulted: the ODE is written out inline, so `ode` does not occur in the
body. -/
def loopG (ode : Oracle) (x y dydx : ℝ) : ℝ :=
  dydx + y / 5 - Real.exp (-x / 5) * Real.cos x

/-- Per-point residual of the current parameters: the loop's `G` evaluated on
the trial-solution value and its derivative. -/
def Gres {H : ℕ} (ode : Oracle) (p : Params H) (x : ℝ) : ℝ :=
  loopG ode x (trialY p x) (dYdx p x)

/-- Loss `L = tf.reduce_sum(G**2)` over the collocation points (source line 136). -/
def lossFn {H : ℕ} (ode : Oracle) (xs : List ℝ) (p : Params H) : ℝ :=
  (xs.map fun x => Gres ode p x ^ 2).sum

/-- Partial derivative `∂N/∂w_j` of the network output. -/
def dN_dw {H : ℕ} (p : Params H) (x : ℝ) (j : Fin H) : ℝ :=
  p.v j * dsigmoid (p.w j * x + p.u j) * x

/-- Partial derivative `∂N/∂u_j` of the network output. -/
def dN_du {H : ℕ} (p : Params H) (x : ℝ) (j : Fin H) : ℝ :=
  p.v j * dsigmoid (p.w j * x + p.u j)

/-- Partial derivative `∂N/∂v_j` of the network output. -/
def dN_dv {H : ℕ} (p : Params H) (x : ℝ) (j : Fin H) : ℝ :=
  sigmoid (p.w j * x + p.u j)

/-- Partial derivative `∂(dN/dx)/∂w_j`. -/
def ddN_dw {H : ℕ} (p : Params H) (x : ℝ) (j : Fin H) : ℝ :=
  p.v j * (d2sigmoid (p.w j * x + p.u j) * x * p.w j + dsigmoid (p.w j * x + p.u j))

/-- Partial derivative `∂(dN/dx)/∂u_j`. -/
def ddN_du {H : ℕ} (p : Params H) (x : ℝ) (j : Fin H) : ℝ :=
  p.v j * d2sigmoid (p.w j * x + p.u j) * p.w j

/-- Partial derivative `∂(dN/dx)/∂v_j`. -/
def ddN_dv {H : ℕ} (p : Params H) (x : ℝ) (j : Fin H) : ℝ :=
  dsigmoid (p.w j * x + p.u j) * p.w j

/-- Partial derivative `∂G/∂w_j = ∂(dY/dx)/∂w_j + (1/5)·∂Y/∂w_j`, with
`∂(dY/dx)/∂p = ∂N/∂p + x·∂(dN/dx)/∂p` and `∂Y/∂p = x·∂N/∂p`. -/
def dG_dw {H : ℕ} (p : Params H) (x : ℝ) (j : Fin H) : ℝ :=
  dN_dw p x j + x * ddN_dw p x j + x / 5 * dN_dw p x j

/-- Partial derivative `∂G/∂u_j`. -/
def dG_du {H : ℕ} (p : Params H) (x : ℝ) (j : Fin H) : ℝ :=
  dN_du p x j + x * ddN_du p x j + x / 5 * dN_du p x j

/-- Partial derivative `∂G/∂v_j`. -/
def dG_dv {H : ℕ} (p : Params H) (x : ℝ) (j : Fin H) : ℝ :=
  dN_dv p x j + x * ddN_dv p x j + x / 5 * dN_dv p x j

/-- Gradient `∂L/∂w_j = Σ_i 2·G(x_i)·∂G(x_i)/∂w_j`, the exact second-level
derivative `tape2.gradient(L, ...)` of the sum-of-squares loss (source line 142). -/
def gradW {H : ℕ} (ode : Oracle) (xs : List ℝ) (p : Params H) (j : Fin H) : ℝ :=
  (xs.map fun x => 2 * Gres ode p x * dG_dw p x j).sum

/-- Gradient `∂L/∂u_j`. -/
def gradU {H : ℕ} (ode : Oracle) (xs : List ℝ) (p : Params H) (j : Fin H) : ℝ :=
  (xs.map fun x => 2 * Gres ode p x * dG_du p x j).sum

/-- Gradient `∂L/∂v_j`. -/
def gradV {H : ℕ} (ode : Oracle) (xs : List ℝ) (p : Params H) (j : Fin H) : ℝ :=
  (xs.map fun x => 2 * Gres ode p x * dG_dv p x j).sum

/-- The three gradient tensors returned by `tape2.gradient(L, model.trainable_variables)`. -/
structure Grads (H : ℕ) where
  gw : Fin H → ℝ
  gu : Fin H → ℝ
  gv : Fin H → ℝ

/-- All three gradients, computed against one parameter snapshot. -/
def gradAll {H : ℕ} (ode : Oracle) (xs : List ℝ) (p : Params H) : Grads H :=
  ⟨gradW ode xs p, gradU ode xs p, gradV ode xs p⟩

/-- Adam hyperparameter `β1` (standard default). -/
def beta1 : ℝ := 9 / 10

/-- Adam hyperparameter `β2` (standard default). -/
def beta2 : ℝ := 999 / 1000

/-- Adam hyperparameter `ε` (standard default `1e-7`). -/
def epsAdam : ℝ := 1 / 10000000

/-- Modelled from the spec: the Adam optimizer state (`tf.keras.optimizers.Adam`
is an external library, not part of this repository). Per-tensor first moments
`mw, mu, mv`, second moments `vw, vu, vv`, and the global step counter `t`. -/
structure AdamState (H : ℕ) where
  t : ℕ
  mw : Fin H → ℝ
  mu : Fin H → ℝ
  mv : Fin H → ℝ
  vw : Fin H → ℝ
  vu : Fin H → ℝ
  vv : Fin H → ℝ

/-- Fresh optimizer state: zero moments, step counter zero (source line 108). -/
def adamInit (H : ℕ) : AdamState H :=
  ⟨0, fun _ => 0, fun _ => 0, fun _ => 0, fun _ => 0, fun _ => 0, fun _ => 0⟩

/-- Modelled from the spec: Adam first-moment update `m ← β1·m + (1−β1)·g`. -/
def adamM {H : ℕ} (m g : Fin H → ℝ) : Fin H → ℝ :=
  fun j => beta1 * m j + (1 - beta1) * g j

/-- Modelled from the spec: Adam second-moment update `v ← β2·v + (1−β2)·g²`. -/
def adamV {H : ℕ} (v g : Fin H → ℝ) : Fin H → ℝ :=
  fun j => beta2 * v j + (1 - beta2) * g j ^ 2

/-- Modelled from the spec: bias-corrected Adam parameter step
`θ ← θ − lr · (m/(1−β1^t)) / (√(v/(1−β2^t)) + ε)`. -/
def adamTheta {H : ℕ} (lr : ℝ) (t : ℕ) (m v θ : Fin H → ℝ) : Fin H → ℝ :=
  fun j => θ j - lr * (m j / (1 - beta1 ^ t)) / (Real.sqrt (v j / (1 - beta2 ^ t)) + epsAdam)

/-- One sequential `apply_gradients` step for the hidden-weight tensor: updates
its own moments and parameters only, from the precomputed gradient `g`. -/
def updW {H : ℕ} (lr : ℝ) (g : Grads H) (t : ℕ) (pa : Params H × AdamState H) :
    Params H × AdamState H :=
  let m := adamM pa.2.mw g.gw
  let v := adamV pa.2.vw g.gw
  ({ pa.1 with w := adamTheta lr t m v pa.1.w }, { pa.2 with mw := m, vw := v })

/-- One sequential `apply_gradients` step for the hidden-bias tensor. -/
def updU {H : ℕ} (lr : ℝ) (g : Grads H) (t : ℕ) (pa : Params H × AdamState H) :
    Params H × AdamState H :=
  let m := adamM pa.2.mu g.gu
  let v := adamV pa.2.vu g.gu
  ({ pa.1 with u := adamTheta lr t m v pa.1.u }, { pa.2 with mu := m, vu := v })

/-- One sequential `apply_gradients` step for the output-weight tensor. -/
def updV {H : ℕ} (lr : ℝ) (g : Grads H) (t : ℕ) (pa : Params H × AdamState H) :
    Params H × AdamState H :=
  let m := adamM pa.2.mv g.gv
  let v := adamV pa.2.vv g.gv
  ({ pa.1 with v := adamTheta lr t m v pa.1.v }, { pa.2 with mv := m, vv := v })

/-- Modelled from the spec: `optimizer.apply_gradients(zip(grad, model.trainable_variables))`
(source line 154). The global step is incremented once, then the three tensors
are updated in the order they appear in `trainable_variables` (hidden kernel,
hidden bias, output kernel), each from the precomputed gradients. -/
def adamApply {H : ℕ} (lr : ℝ) (g : Grads H) (p : Params H) (a : AdamState H) :
    Params H × AdamState H :=
  let t := a.t + 1
  updV lr g t (updU lr g t (updW lr g t (p, { a with t := t })))

/-- The mutable state of the training run: current parameters, optimizer state,
and the two append-only histories `losses` and `phist`. -/
structure TrainState (H : ℕ) where
  params : Params H
  adam : AdamState H
  losses : List ℝ
  phist : List (List ℝ)

/-- Flattened parameter snapshot `np.hstack((w, u, v))` (source lines 145-151):
the hidden kernel's single row, the bias vector, the output kernel's single
column, concatenated. -/
def flatten {H : ℕ} (p : Params H) : List ℝ :=
  List.ofFn p.w ++ List.ofFn p.u ++ List.ofFn p.v

/-- One epoch of the training loop, in the order of source lines 115-154:
compute the loss (lines 119-136), append it to `losses` (line 139), compute the
gradients (line 142), append the flattened current parameters to `phist`
(lines 145-151), then apply the optimizer update (line 154). -/
def epochStep {H : ℕ} (ode : Oracle) (lr : ℝ) (xs : List ℝ) (s : TrainState H) :
    TrainState H :=
  let L := lossFn ode xs s.params
  let losses' := s.losses ++ [L]
  let g := gradAll ode xs s.params
  let phist' := s.phist ++ [flatten s.params]
  let pa := adamApply lr g s.params s.adam
  ⟨pa.1, pa.2, losses', phist'⟩

/-- The training loop: `n` epochs starting from state `s`. -/
def trainLoop {H : ℕ} (ode : Oracle) (lr : ℝ) (xs : List ℝ) : ℕ → TrainState H → TrainState H
  | 0, s => s
  | n + 1, s => epochStep ode lr xs (trainLoop ode lr xs n s)

/-- Initial training state: a freshly initialized model, a fresh optimizer, and
empty histories (source lines 95-108). -/
def initState {H : ℕ} (p : Params H) : TrainState H :=
  ⟨p, adamInit H, [], []⟩

/-- The outputs of the FINALIZE phase (source lines 166-191): trained solution
and derivative at the training points, and the four optional analytic-oracle
outputs. -/
structure FinalOutputs where
  Yt : List ℝ
  dYt : List ℝ
  Ya : Option (List ℝ)
  dYa : Option (List ℝ)
  Yerr : Option (List ℝ)
  dYerr : Option (List ℝ)

/-- FINALIZE, translated from source lines 166-191: recompute `N` and `dN/dx`
at the training points with the final parameters, derive `Yt = x·N` (line 172)
and `dYt_dx = x·dN/dx + N` (line 174); then each optional output is gated on
the corresponding oracle capability (`if ode1ivp.Ya:` at lines 178 and 186,
`if ode1ivp.dYa_dx:` at lines 181 and 189), with the errors `trained − analytic`. -/
def finalize {H : ℕ} (ode : Oracle) (xs : List ℝ) (p : Params H) : FinalOutputs :=
  { Yt := xs.map fun x => x * Nnet p x
    dYt := xs.map fun x => x * dNdx p x + Nnet p x
    Ya := ode.Ya.map fun f => xs.map f
    dYa := ode.dYa_dx.map fun f => xs.map f
    Yerr := ode.Ya.map fun f => xs.map fun x => x * Nnet p x - f x
    dYerr := ode.dYa_dx.map fun f => xs.map fun x => (x * dNdx p x + Nnet p x) - f x }

/-- Modelled from the spec: the residual of the `lagaris_02` equation loaded by
`ODE1IVP` (spec section 4.3: `dy/dx + y/5 - exp(-x/5)cos(x)`). -/
def lagaris02Res (x y dydx : ℝ) : ℝ :=
  dydx + y / 5 - Real.exp (-x / 5) * Real.cos x

/-- An oracle whose residual is identically zero and which has no analytic
capabilities; used to probe whether the loop consults the oracle. -/
def zeroOracle : Oracle :=
  ⟨fun _ _ _ => 0, none, none⟩

/-- The lagaris_02 oracle as the script configures it (residual from the spec's
formula, both analytic capabilities present in the real package; their exact
formulas are irrelevant to the claims, so they are left as parameters). -/
def lagarisOracle (ya dya : ℝ → ℝ) : Oracle :=
  ⟨lagaris02Res, some ya, some dya⟩

/-- The run configuration recognized by the script (spec section 6). -/
structure Config where
  H : ℕ
  nt : ℕ
  nEpochs : ℕ
  lr : ℝ
  seed : ℕ

/-- Modelled from the spec: a whole run as a function of the configuration,
parameterized by the (external, deterministic) seeded parameter initializer and
collocation-grid generator. Returns the loss history, the parameter history,
and the flattened final parameters. -/
def fullRun (ode : Oracle) (init : (H : ℕ) → ℕ → Params H) (grid : ℕ → List ℝ)
    (c : Config) : List ℝ × List (List ℝ) × List ℝ :=
  let s := trainLoop ode c.lr (grid c.nt) c.nEpochs (initState (init c.H c.seed))
  (s.losses, s.phist, flatten s.params)

/-- A deterministic all-zero initializer, used as a concrete instantiation. -/
def initZero : (H : ℕ) → ℕ → Params H :=
  fun _ _ => ⟨fun _ => 0, fun _ => 0, fun _ => 0⟩

/-- Concrete one-unit parameter state `w = 0, u = 0, v = 1` used for concrete
epoch evaluations. -/
def pOne : Params 1 :=
  ⟨fun _ => 0, fun _ => 0, fun _ => 1⟩

/-- Concrete one-unit parameter state `w = 0, u = 0, v = 2`; at the collocation
set `[0]` this is an exact zero-residual point, so the loss gradient vanishes. -/
def pStar : Params 1 :=
  ⟨fun _ => 0, fun _ => 0, fun _ => 2⟩

/-- Oracle chosen for the C9 witness: no analytic solution, but an analytic
derivative, exercising the independent gating of the two capabilities. -/
def oHalf : Oracle :=
  ⟨lagaris02Res, none, some fun _ => 0⟩

end

theorem epochStep_oracle_eq {H : ℕ} (o₁ o₂ : Oracle) (lr : ℝ) (xs : List ℝ)
    (s : TrainState H) : epochStep o₁ lr xs s = epochStep o₂ lr xs s := rfl

theorem trainLoop_oracle_eq {H : ℕ} (o₁ o₂ : Oracle) (lr : ℝ) (xs : List ℝ) (n : ℕ)
    (s : TrainState H) : trainLoop o₁ lr xs n s = trainLoop o₂ lr xs n s := by
  induction n with
  | zero => rfl
  | succ n ih =>
    show epochStep o₁ lr xs (trainLoop o₁ lr xs n s) =
      epochStep o₂ lr xs (trainLoop o₂ lr xs n s)
    rw [ih]
    exact epochStep_oracle_eq o₁ o₂ lr xs _

theorem epochStep_losses {H : ℕ} (ode : Oracle) (lr : ℝ) (xs : List ℝ) (s : TrainState H) :
    (epochStep ode lr xs s).losses = s.losses ++ [lossFn ode xs s.params] := rfl

theorem epochStep_phist {H : ℕ} (ode : Oracle) (lr : ℝ) (xs : List ℝ) (s : TrainState H) :
    (epochStep ode lr xs s).phist = s.phist ++ [flatten s.params] := rfl

theorem epochStep_params {H : ℕ} (ode : Oracle) (lr : ℝ) (xs : List ℝ) (s : TrainState H) :
    (epochStep ode lr xs s).params =
      (adamApply lr (gradAll ode xs s.params) s.params s.adam).1 := rfl

theorem trainLoop_succ {H : ℕ} (ode : Oracle) (lr : ℝ) (xs : List ℝ) (n : ℕ)
    (s : TrainState H) :
    trainLoop ode lr xs (n + 1) s = epochStep ode lr xs (trainLoop ode lr xs n s) := rfl

theorem trainLoop_losses {H : ℕ} (ode : Oracle) (lr : ℝ) (xs : List ℝ) (n : ℕ)
    (s : TrainState H) :
    (trainLoop ode lr xs n s).losses =
      s.losses ++ (List.range n).map fun k => lossFn ode xs (trainLoop ode lr xs k s).params := by
  induction n with
  | zero => simp [trainLoop]
  | succ n ih =>
    rw [trainLoop_succ, epochStep_losses, ih, List.range_succ]
    simp

theorem trainLoop_phist {H : ℕ} (ode : Oracle) (lr : ℝ) (xs : List ℝ) (n : ℕ)
    (s : TrainState H) :
    (trainLoop ode lr xs n s).phist =
      s.phist ++ (List.range n).map fun k => flatten (trainLoop ode lr xs k s).params := by
  induction n with
  | zero => simp [trainLoop]
  | succ n ih =>
    rw [trainLoop_succ, epochStep_phist, ih, List.range_succ]
    simp

theorem flatten_length {H : ℕ} (p : Params H) : (flatten p).length = 3 * H := by
  simp [flatten]
  ring

theorem lossFn_nonneg {H : ℕ} (ode : Oracle) (xs : List ℝ) (p : Params H) :
    0 ≤ lossFn ode xs p := by
  apply List.sum_nonneg
  intro a ha
  obtain ⟨x, _, rfl⟩ := List.mem_map.1 ha
  exact sq_nonneg _

theorem adamApply_w {H : ℕ} (lr : ℝ) (g : Grads H) (p : Params H) (a : AdamState H)
    (j : Fin H) :
    (adamApply lr g p a).1.w j =
      p.w j - lr * ((beta1 * a.mw j + (1 - beta1) * g.gw j) / (1 - beta1 ^ (a.t + 1))) /
        (Real.sqrt ((beta2 * a.vw j + (1 - beta2) * g.gw j ^ 2) / (1 - beta2 ^ (a.t + 1))) +
          epsAdam) := rfl

theorem adamApply_u {H : ℕ} (lr : ℝ) (g : Grads H) (p : Params H) (a : AdamState H)
    (j : Fin H) :
    (adamApply lr g p a).1.u j =
      p.u j - lr * ((beta1 * a.mu j + (1 - beta1) * g.gu j) / (1 - beta1 ^ (a.t + 1))) /
        (Real.sqrt ((beta2 * a.vu j + (1 - beta2) * g.gu j ^ 2) / (1 - beta2 ^ (a.t + 1))) +
          epsAdam) := rfl

theorem adamApply_v {H : ℕ} (lr : ℝ) (g : Grads H) (p : Params H) (a : AdamState H)
    (j : Fin H) :
    (adamApply lr g p a).1.v j =
      p.v j - lr * ((beta1 * a.mv j + (1 - beta1) * g.gv j) / (1 - beta1 ^ (a.t + 1))) /
        (Real.sqrt ((beta2 * a.vv j + (1 - beta2) * g.gv j ^ 2) / (1 - beta2 ^ (a.t + 1))) +
          epsAdam) := rfl

theorem initState_losses {H : ℕ} (p : Params H) : (initState p).losses = [] := rfl

theorem initState_phist {H : ℕ} (p : Params H) : (initState p).phist = [] := rfl

theorem sigmoid_zero : sigmoid 0 = 1 / 2 := by
  unfold sigmoid
  rw [neg_zero, Real.exp_zero]
  norm_num

theorem Gres_pOne : Gres zeroOracle pOne 0 = -(1 / 2) := by
  unfold Gres loopG trialY dYdx Nnet dNdx pOne
  simp [Fin.sum_univ_one, sigmoid_zero, Real.exp_zero, Real.cos_zero]
  norm_num

theorem dGdv_pOne : dG_dv pOne 0 0 = 1 / 2 := by
  unfold dG_dv dN_dv ddN_dv pOne
  simp [sigmoid_zero]

theorem gradV_pOne : gradV zeroOracle [0] pOne 0 = -(1 / 2) := by
  unfold gradV
  simp [Gres_pOne, dGdv_pOne]

theorem trainLoop_one_pOne_v :
    (trainLoop zeroOracle learningRate [0] 1 (initState pOne)).params.v 0 =
      1 + 50000 / 5000001 := by
  show (adamApply learningRate (gradAll zeroOracle [0] pOne) pOne (adamInit 1)).1.v 0 = _
  rw [adamApply_v]
  show pOne.v 0 - learningRate *
      ((beta1 * 0 + (1 - beta1) * gradV zeroOracle [0] pOne 0) / (1 - beta1 ^ (0 + 1))) /
      (Real.sqrt ((beta2 * 0 + (1 - beta2) * gradV zeroOracle [0] pOne 0 ^ 2) /
        (1 - beta2 ^ (0 + 1))) + epsAdam) = _
  rw [gradV_pOne]
  have harg : (beta2 * 0 + (1 - beta2) * (-(1 / 2) : ℝ) ^ 2) / (1 - beta2 ^ (0 + 1)) =
      (1 / 2) ^ 2 := by
    unfold beta2
    norm_num
  rw [harg, Real.sqrt_sq (by norm_num : (0 : ℝ) ≤ 1 / 2)]
  unfold pOne learningRate beta1 epsAdam
  norm_num

theorem Gres_pStar : Gres zeroOracle pStar 0 = 0 := by
  unfold Gres loopG trialY dYdx Nnet dNdx pStar
  simp [Fin.sum_univ_one, sigmoid_zero, Real.exp_zero, Real.cos_zero]

theorem gradW_pStar : gradW zeroOracle [0] pStar 0 = 0 := by
  unfold gradW
  simp [Gres_pStar]

theorem gradU_pStar : gradU zeroOracle [0] pStar 0 = 0 := by
  unfold gradU
  simp [Gres_pStar]

theorem gradV_pStar : gradV zeroOracle [0] pStar 0 = 0 := by
  unfold gradV
  simp [Gres_pStar]

theorem trainLoop_one_pStar_params :
    flatten (trainLoop zeroOracle learningRate [0] 1 (initState pStar)).params =
      flatten pStar := by
  have hw : (trainLoop zeroOracle learningRate [0] 1 (initState pStar)).params.w 0 =
      pStar.w 0 := by
    show (adamApply learningRate (gradAll zeroOracle [0] pStar) pStar (adamInit 1)).1.w 0 = _
    rw [adamApply_w]
    show pStar.w 0 - learningRate *
        ((beta1 * 0 + (1 - beta1) * gradW zeroOracle [0] pStar 0) / (1 - beta1 ^ (0 + 1))) /
        (Real.sqrt ((beta2 * 0 + (1 - beta2) * gradW zeroOracle [0] pStar 0 ^ 2) /
          (1 - beta2 ^ (0 + 1))) + epsAdam) = _
    rw [gradW_pStar]
    simp
  have hu : (trainLoop zeroOracle learningRate [0] 1 (initState pStar)).params.u 0 =
      pStar.u 0 := by
    show (adamApply learningRate (gradAll zeroOracle [0] pStar) pStar (adamInit 1)).1.u 0 = _
    rw [adamApply_u]
    show pStar.u 0 - learningRate *
        ((beta1 * 0 + (1 - beta1) * gradU zeroOracle [0] pStar 0) / (1 - beta1 ^ (0 + 1))) /
        (Real.sqrt ((beta2 * 0 + (1 - beta2) * gradU zeroOracle [0] pStar 0 ^ 2) /
          (1 - beta2 ^ (0 + 1))) + epsAdam) = _
    rw [gradU_pStar]
    simp
  have hv : (trainLoop zeroOracle learningRate [0] 1 (initState pStar)).params.v 0 =
      pStar.v 0 := by
    show (adamApply learningRate (gradAll zeroOracle [0] pStar) pStar (adamInit 1)).1.v 0 = _
    rw [adamApply_v]
    show pStar.v 0 - learningRate *
        ((beta1 * 0 + (1 - beta1) * gradV zeroOracle [0] pStar 0) / (1 - beta1 ^ (0 + 1))) /
        (Real.sqrt ((beta2 * 0 + (1 - beta2) * gradV zeroOracle [0] pStar 0 ^ 2) /
          (1 - beta2 ^ (0 + 1))) + epsAdam) = _
    rw [gradV_pStar]
    simp
  unfold flatten
  rw [List.ofFn_succ, List.ofFn_succ, List.ofFn_succ]
  simp [hw, hu, hv]

/-- Claim C1, counterexample: the residual computed by the training loop is not
obtained by calling the Equation Oracle's `residual` function — with an oracle
whose residual is identically zero, the loop's `G` at `x = 0, y = 0, dy_dx = 0`
is `-1`, not the oracle's `0`: the loop encodes the governing ODE inline. -/
theorem C1_counterexample : loopG zeroOracle 0 0 0 ≠ zeroOracle.residual 0 0 0 := by
  unfold loopG zeroOracle
  norm_num [Real.exp_zero, Real.cos_zero]

/-- Claim C1, amended: the residual `G` computed inline by the training loop
(source line 133) coincides pointwise with the lagaris_02 Equation Oracle's
residual `dy/dx + y/5 − exp(−x/5)·cos(x)`, but the loop does not call the
oracle: its residual, and the entire training run, are independent of the
oracle supplied. -/
theorem C1_inline_residual :
    (∀ (o : Oracle) (x y d : ℝ), loopG o x y d = lagaris02Res x y d) ∧
    (∀ (H : ℕ) (o₁ o₂ : Oracle) (lr : ℝ) (xs : List ℝ) (n : ℕ) (s : TrainState H),
      trainLoop o₁ lr xs n s = trainLoop o₂ lr xs n s) :=
  ⟨fun _ _ _ _ => rfl, fun _ o₁ o₂ lr xs n s => trainLoop_oracle_eq o₁ o₂ lr xs n s⟩

/-- Claim C2: the trial solution ansatz `Y(x) = x · N(x; θ)` satisfies
`Y(0) = 0` for every parameter setting θ, structurally, independent of
training progress. -/
theorem C2_trial_solution_ic (H : ℕ) (p : Params H) : trialY p 0 = 0 := by
  unfold trialY
  exact zero_mul _

/-- Claim C3, counterexample: after one epoch from a concrete state, the
recorded parameter snapshot is not the post-update parameter vector — RECORD
does not occur after the optimizer UPDATE of that epoch. -/
theorem C3_counterexample :
    (trainLoop zeroOracle learningRate [0] 1 (initState pOne)).phist ≠
      [flatten (trainLoop zeroOracle learningRate [0] 1 (initState pOne)).params] := by
  intro h
  have h1 : (trainLoop zeroOracle learningRate [0] 1 (initState pOne)).phist =
      [flatten pOne] := rfl
  rw [h1] at h
  injection h with h2 _
  have h3 := congrArg (fun l => l.getD 2 0) h2
  simp only [flatten, List.ofFn_succ, List.ofFn_zero, List.cons_append, List.nil_append,
    List.getD_cons_succ, List.getD_cons_zero] at h3
  rw [trainLoop_one_pOne_v] at h3
  have h4 : pOne.v 0 = 1 := rfl
  rw [h4] at h3
  norm_num at h3

/-- Claim C3, amended: within each epoch the steps run in the order FORWARD,
RESIDUAL, LOSS, RECORD(loss), BACKWARD, RECORD(parameters), UPDATE: both
history appends record the pre-update state of that epoch, and the optimizer
UPDATE of the epoch comes last, applied to that same pre-update state. -/
theorem C3_record_precedes_update (H : ℕ) (ode : Oracle) (lr : ℝ) (xs : List ℝ)
    (s : TrainState H) :
    (epochStep ode lr xs s).losses = s.losses ++ [lossFn ode xs s.params] ∧
    (epochStep ode lr xs s).phist = s.phist ++ [flatten s.params] ∧
    (epochStep ode lr xs s).params =
      (adamApply lr (gradAll ode xs s.params) s.params s.adam).1 ∧
    (epochStep ode lr xs s).adam =
      (adamApply lr (gradAll ode xs s.params) s.params s.adam).2 :=
  ⟨rfl, rfl, rfl, rfl⟩

/-- Claim C5: in every epoch each of the three parameter tensors receives
exactly one Adam update, computed from the gradient evaluated at the epoch's
pre-update parameter snapshot, and the sequential per-tensor application is
order-independent: no tensor's update sees another tensor's updated value. -/
theorem C5_update_once_per_tensor (H : ℕ) (ode : Oracle) (lr : ℝ) (xs : List ℝ)
    (s : TrainState H) :
    ((epochStep ode lr xs s).params.w =
      adamTheta lr (s.adam.t + 1) (adamM s.adam.mw (gradW ode xs s.params))
        (adamV s.adam.vw (gradW ode xs s.params)) s.params.w) ∧
    ((epochStep ode lr xs s).params.u =
      adamTheta lr (s.adam.t + 1) (adamM s.adam.mu (gradU ode xs s.params))
        (adamV s.adam.vu (gradU ode xs s.params)) s.params.u) ∧
    ((epochStep ode lr xs s).params.v =
      adamTheta lr (s.adam.t + 1) (adamM s.adam.mv (gradV ode xs s.params))
        (adamV s.adam.vv (gradV ode xs s.params)) s.params.v) ∧
    (∀ (g : Grads H) (t : ℕ) (pa : Params H × AdamState H),
      updW lr g t (updU lr g t (updV lr g t pa)) = updV lr g t (updU lr g t (updW lr g t pa)) ∧
      updU lr g t (updW lr g t (updV lr g t pa)) = updV lr g t (updU lr g t (updW lr g t pa)) ∧
      updU lr g t (updV lr g t (updW lr g t pa)) = updV lr g t (updU lr g t (updW lr g t pa)) ∧
      updW lr g t (updV lr g t (updU lr g t pa)) = updV lr g t (updU lr g t (updW lr g t pa)) ∧
      updV lr g t (updW lr g t (updU lr g t pa)) = updV lr g t (updU lr g t (updW lr g t pa))) :=
  ⟨rfl, rfl, rfl, fun _ _ _ => ⟨rfl, rfl, rfl, rfl, rfl⟩⟩

/-- Claim C6: at the end of a run of `n` epochs from a fresh state,
`LossHistory` and `ParameterHistory` both have length `n`, and every entry of
`ParameterHistory` is a flattened `[w | u | v]` vector of length exactly
`3·H`. -/
theorem C6_history_shapes (H : ℕ) (ode : Oracle) (lr : ℝ) (xs : List ℝ) (n : ℕ)
    (p : Params H) :
    (trainLoop ode lr xs n (initState p)).losses.length = n ∧
    (trainLoop ode lr xs n (initState p)).phist.length = n ∧
    (trainLoop ode lr xs n (initState p)).phist.map List.length =
      List.replicate n (3 * H) := by
  refine ⟨?_, ?_, ?_⟩
  · rw [trainLoop_losses]
    simp [initState_losses]
  · rw [trainLoop_phist]
    simp [initState_phist]
  · rw [trainLoop_phist]
    simp only [initState_phist, List.nil_append, List.map_map]
    refine List.eq_replicate_iff.2 ⟨by simp, ?_⟩
    intro b hb
    obtain ⟨k, _, rfl⟩ := List.mem_map.1 hb
    exact flatten_length _

/-- Claim C7: training is a deterministic function of the hyperparameters and
the seed — two runs whose configurations agree on `(H, nt, n_epochs,
learning_rate, seed)` produce identical loss histories, parameter histories
and final parameters. -/
theorem C7_deterministic (ode : Oracle) (init : (H : ℕ) → ℕ → Params H)
    (grid : ℕ → List ℝ) (c₁ c₂ : Config) (hH : c₁.H = c₂.H) (hnt : c₁.nt = c₂.nt)
    (hn : c₁.nEpochs = c₂.nEpochs) (hlr : c₁.lr = c₂.lr) (hs : c₁.seed = c₂.seed) :
    fullRun ode init grid c₁ = fullRun ode init grid c₂ := by
  obtain ⟨H₁, nt₁, n₁, lr₁, s₁⟩ := c₁
  obtain ⟨H₂, nt₂, n₂, lr₂, s₂⟩ := c₂
  cases hH
  cases hnt
  cases hn
  cases hlr
  cases hs
  rfl

/-- Witness for C7 at the script's configuration
`H = 10, nt = 11, n_epochs = 1000, learning_rate = 0.01, seed = 0`. -/
theorem C7_witness :
    fullRun zeroOracle initZero (fun _ => [])
        ⟨Hval, ntVal, nEpochsVal, learningRate, randomSeed⟩ =
      fullRun zeroOracle initZero (fun _ => [])
        ⟨Hval, ntVal, nEpochsVal, learningRate, randomSeed⟩ :=
  C7_deterministic zeroOracle initZero (fun _ => []) _ _ rfl rfl rfl rfl rfl

/-- Claim C8: for every epoch `k` of a run, the recorded loss `LossHistory[k]`
is the sum over the collocation points of the squared residual under the
parameters current at epoch `k`, and is therefore nonnegative. -/
theorem C8_loss_entries (H : ℕ) (ode : Oracle) (lr : ℝ) (xs : List ℝ) (p : Params H)
    (n k : ℕ) (hk : k < n) :
    (trainLoop ode lr xs n (initState p)).losses.getD k 0 =
      lossFn ode xs ((trainLoop ode lr xs k (initState p)).params) ∧
    0 ≤ (trainLoop ode lr xs n (initState p)).losses.getD k 0 := by
  have hval : (trainLoop ode lr xs n (initState p)).losses.getD k 0 =
      lossFn ode xs ((trainLoop ode lr xs k (initState p)).params) := by
    rw [trainLoop_losses]
    simp only [initState_losses, List.nil_append]
    have hlen : k < ((List.range n).map fun j =>
        lossFn ode xs (trainLoop ode lr xs j (initState p)).params).length := by
      simpa using hk
    rw [List.getD_eq_getElem _ _ hlen]
    simp
  exact ⟨hval, hval ▸ lossFn_nonneg ode xs _⟩

/-- Witness for C8 at a concrete one-epoch run. -/
theorem C8_witness :
    (trainLoop zeroOracle learningRate [0] 1 (initState pOne)).losses.getD 0 0 =
      lossFn zeroOracle [0] ((trainLoop zeroOracle learningRate [0] 0 (initState pOne)).params) ∧
    0 ≤ (trainLoop zeroOracle learningRate [0] 1 (initState pOne)).losses.getD 0 0 :=
  C8_loss_entries 1 zeroOracle learningRate [0] pOne 1 0 (by decide)

/-- Claim C9: each optional FINALIZE output is gated independently on its own
oracle capability: absent capabilities produce no output (and no failure,
`finalize` being total), and each present capability produces its outputs
regardless of the other. -/
theorem C9_capability_gating (H : ℕ) (p : Params H) (xs : List ℝ) (o : Oracle) :
    (o.Ya = none → (finalize o xs p).Ya = none ∧ (finalize o xs p).Yerr = none) ∧
    (o.dYa_dx = none → (finalize o xs p).dYa = none ∧ (finalize o xs p).dYerr = none) ∧
    (∀ f, o.Ya = some f → (finalize o xs p).Ya = some (xs.map f) ∧
      (finalize o xs p).Yerr = some (xs.map fun x => x * Nnet p x - f x)) ∧
    (∀ f, o.dYa_dx = some f → (finalize o xs p).dYa = some (xs.map f) ∧
      (finalize o xs p).dYerr = some (xs.map fun x => (x * dNdx p x + Nnet p x) - f x)) := by
  refine ⟨fun h => ?_, fun h => ?_, fun f h => ?_, fun f h => ?_⟩ <;> simp [finalize, h]

/-- Witness for C9 with an oracle exposing only the analytic derivative: the
solution-related outputs are absent while the derivative-related outputs are
produced. -/
theorem C9_witness :
    ((finalize oHalf [0] pOne).Ya = none ∧ (finalize oHalf [0] pOne).Yerr = none) ∧
    ((finalize oHalf [0] pOne).dYa = some (([0] : List ℝ).map fun _ => (0 : ℝ)) ∧
      (finalize oHalf [0] pOne).dYerr =
        some (([0] : List ℝ).map fun x =>
          (x * dNdx pOne x + Nnet pOne x) - (fun _ => (0 : ℝ)) x)) :=
  ⟨(C9_capability_gating 1 pOne [0] oHalf).1 rfl,
   (C9_capability_gating 1 pOne [0] oHalf).2.2.2 (fun _ => 0) rfl⟩

/-- Claim C10, counterexample: the final trained parameters can appear in
`ParameterHistory` — starting from a parameter vector with zero residual on
the collocation set, the Adam step is a no-op, so the post-update final
parameters equal the recorded snapshot. -/
theorem C10_counterexample :
    flatten ((trainLoop zeroOracle learningRate [0] 1 (initState pStar)).params) ∈
      (trainLoop zeroOracle learningRate [0] 1 (initState pStar)).phist := by
  rw [trainLoop_one_pStar_params]
  have h1 : (trainLoop zeroOracle learningRate [0] 1 (initState pStar)).phist =
      [flatten pStar] := rfl
  rw [h1]
  exact List.mem_singleton.2 rfl

/-- Claim C10, amended: `ParameterHistory[k]` is exactly the flattened
parameter vector `θ_k` that produced `LossHistory[k]`, both captured before
epoch `k`'s optimizer update; the FINALIZE evaluation uses the parameters one
Adam update past the last recorded snapshot (which coincide with a recorded
snapshot only if an update is a no-op). -/
theorem C10_snapshot_correspondence (H : ℕ) (ode : Oracle) (lr : ℝ) (xs : List ℝ)
    (p : Params H) (n k : ℕ) (hk : k < n) :
    (trainLoop ode lr xs n (initState p)).phist.getD k [] =
      flatten ((trainLoop ode lr xs k (initState p)).params) ∧
    (trainLoop ode lr xs n (initState p)).losses.getD k 0 =
      lossFn ode xs ((trainLoop ode lr xs k (initState p)).params) ∧
    (trainLoop ode lr xs (k + 1) (initState p)).params =
      (adamApply lr (gradAll ode xs ((trainLoop ode lr xs k (initState p)).params))
        ((trainLoop ode lr xs k (initState p)).params)
        ((trainLoop ode lr xs k (initState p)).adam)).1 := by
  refine ⟨?_, ?_, rfl⟩
  · rw [trainLoop_phist]
    simp only [initState_phist, List.nil_append]
    have hlen : k < ((List.range n).map fun j =>
        flatten (trainLoop ode lr xs j (initState p)).params).length := by
      simpa using hk
    rw [List.getD_eq_getElem _ _ hlen]
    simp
  · rw [trainLoop_losses]
    simp only [initState_losses, List.nil_append]
    have hlen : k < ((List.range n).map fun j =>
        lossFn ode xs (trainLoop ode lr xs j (initState p)).params).length := by
      simpa using hk
    rw [List.getD_eq_getElem _ _ hlen]
    simp

/-- Witness for C10's amended statement at a concrete one-epoch run. -/
theorem C10_witness :
    (trainLoop zeroOracle learningRate [0] 1 (initState pOne)).phist.getD 0 [] =
      flatten ((trainLoop zeroOracle learningRate [0] 0 (initState pOne)).params) ∧
    (trainLoop zeroOracle learningRate [0] 1 (initState pOne)).losses.getD 0 0 =
      lossFn zeroOracle [0] ((trainLoop zeroOracle learningRate [0] 0 (initState pOne)).params) ∧
    (trainLoop zeroOracle learningRate [0] (0 + 1) (initState pOne)).params =
      (adamApply learningRate
        (gradAll zeroOracle [0] ((trainLoop zeroOracle learningRate [0] 0 (initState pOne)).params))
        ((trainLoop zeroOracle learningRate [0] 0 (initState pOne)).params)
        ((trainLoop zeroOracle learningRate [0] 0 (initState pOne)).adam)).1 :=
  C10_snapshot_correspondence 1 zeroOracle learningRate [0] pOne 1 0 (by decide)

end Lagaris02
